import Mathlib

/-!
Verification of the nestri relay core (Go sources under packages/relay)
against its natural-language specification.  The Go code is shallowly
embedded: pure fragments become Lean functions, stateful fragments become
explicit state passing, Go `nil` pointers become `Option`, Go channels
become explicit bounded queues, and the handler loops become per-frame
step functions.
-/

namespace Nestri

/-! ## Fan-out engine (shared/room.go, channel-slice variant) -/

/-- Embedding of `participantPacket` from room.go: the pooled wrapper struct
holding a codec kind and an RTP packet.  Kinds and packets are abstracted to
naturals (the fan-out engine treats both as opaque). -/
structure PPacket where
  kind : Nat
  packet : Nat
deriving DecidableEq, Repr

/-- State of one participant packet channel: its buffered queue and its
capacity (Go `chan *participantPacket` with a fixed buffer size). -/
structure ChanState where
  queue : List PPacket
  cap : Nat
deriving DecidableEq, Repr

/-- Queue capacity used by `NewParticipant` in room.go:
`make(chan *participantPacket, 1000)`. -/
def participantQueueCapacity : Nat := 1000

/-- A fresh participant channel as allocated by `NewParticipant`. -/
def newParticipantChan : ChanState :=
  { queue := [], cap := participantQueueCapacity }

/-- State touched by `Room.BroadcastPacket`: the current participant-channel
slice and the wrapper count of the process-wide `participantPacketPool`
(`sync.Pool`: `Get` takes a pooled wrapper when one exists and allocates a
fresh one otherwise, `Put` returns a wrapper). -/
structure FanoutState where
  channels : List ChanState
  pool : Nat
deriving DecidableEq, Repr

/-- Embedding of the non-blocking `select` send in `BroadcastPacket`: if the
channel has free space the packet is enqueued and the send succeeds,
otherwise the channel is left unchanged and the send reports failure. -/
def trySend (ch : ChanState) (pp : PPacket) : ChanState × Bool :=
  if ch.queue.length < ch.cap then ({ ch with queue := ch.queue ++ [pp] }, true)
  else (ch, false)

/-- Embedding of the `for i, ch := range *channels` loop body of
`Room.BroadcastPacket`: per channel, take a wrapper from the pool
(`pool - 1`, which also models `Get` allocating fresh when the pool is
empty), fill it, attempt the non-blocking send, and on a full channel put
the wrapper back (`+ 1`). -/
def broadcastLoop (kind packet : Nat) : List ChanState → Nat → List ChanState × Nat
  | [], pool => ([], pool)
  | ch :: rest, pool =>
    let afterGet := pool - 1
    let sendRes := trySend ch ⟨kind, packet⟩
    let afterPut := if sendRes.2 then afterGet else afterGet + 1
    let tail := broadcastLoop kind packet rest afterPut
    (sendRes.1 :: tail.1, tail.2)

/-- Embedding of `Room.BroadcastPacket` (room.go lines 142-167): lock-free
load of the channel slice, early return when it is empty, then one
non-blocking send per channel. -/
def broadcastPacket (kind packet : Nat) (st : FanoutState) : FanoutState :=
  if st.channels.length = 0 then st
  else
    let r := broadcastLoop kind packet st.channels st.pool
    { channels := r.1, pool := r.2 }

/-! ## Participant add/remove (shared/room.go) -/

/-- Embedding of the `Participant` fields used by `AddParticipant` and
`RemoveParticipantByID`: its ULID and the identity of its `packetQueue`
channel (channels are compared by identity in Go, modelled as naturals). -/
structure ParticipantRec where
  id : Nat
  packetQueue : Nat
deriving DecidableEq, Repr

/-- The Room state used by `AddParticipant` / `RemoveParticipantByID`:
the `Participants` map (Go map, modelled extensionally) and the
participant-channel slice (channel identities). -/
structure RoomParticipants where
  participants : Nat → Option ParticipantRec
  channels : List Nat

/-- Embedding of `Room.AddParticipant` (room.go lines 93-109): store the
participant in the map and append its packet queue to a fresh copy of the
channel slice. -/
def addParticipant (st : RoomParticipants) (p : ParticipantRec) : RoomParticipants :=
  { participants := fun k => if k = p.id then some p else st.participants k,
    channels := st.channels ++ [p.packetQueue] }

/-- Embedding of `Room.RemoveParticipantByID` (room.go lines 111-135): look
the participant up; when absent do nothing; otherwise delete it from the map
and rebuild the channel slice keeping every channel different from the
participant's packet queue. -/
def removeParticipantByID (st : RoomParticipants) (pID : Nat) : RoomParticipants :=
  match st.participants pID with
  | none => st
  | some participant =>
    { participants := fun k => if k = pID then none else st.participants k,
      channels := st.channels.filter (fun ch => ch != participant.packetQueue) }

/-! ## Room online state (shared/room.go) -/

/-- Embedding of the `Room` fields relevant to online state: `RoomInfo`
identity plus the nilable `PeerConnection` and `DataChannel` pointers
(identities of the underlying objects, abstracted to naturals). -/
structure Room where
  id : Nat
  name : String
  ownerID : Nat
  peerConnection : Option Nat
  dataChannel : Option Nat
deriving DecidableEq, Repr

/-- Embedding of `NewRoom`: both connection pointers start nil. -/
def newRoom (name : String) (roomID ownerID : Nat) : Room :=
  { id := roomID, name := name, ownerID := ownerID,
    peerConnection := none, dataChannel := none }

/-- Embedding of `Room.IsOnline` (room.go lines 137-140):
`return r.PeerConnection != nil`. -/
def isOnline (r : Room) : Bool := r.peerConnection.isSome

/-- Embedding of `Room.Close` (room.go lines 76-91): close and nil out the
data channel and the peer connection. -/
def roomClose (r : Room) : Room :=
  { r with peerConnection := none, dataChannel := none }

/-- Embedding of the assignment `room.PeerConnection = pc` performed by the
push handler's `offer` branch (protocol_stream.go line 503). -/
def setOfferConnection (r : Room) (pc : Nat) : Room :=
  { r with peerConnection := some pc }

/-- Modelled from the spec: `get-by-name(name) → room | nil` of the Room
Registry (§4.3).  `Relay.GetRoomByName` itself is not under src/; only its
callers are. -/
def getRoomByName (rooms : List Room) (name : String) : Option Room :=
  rooms.find? (fun r => r.name = name)

/-- Modelled from the spec: `create(name) → room` of the Room Registry
(§4.3); the created room is owned by this relay and offline (nil inbound
session).  `Relay.CreateRoom` itself is not under src/. -/
def createRoom (relayID : Nat) (rooms : List Room) (name : String) : List Room :=
  rooms ++ [newRoom name (rooms.length + 1) relayID]

/-! ## ICE candidate helper (common/ice_helper.go) -/

/-- Embedding of `webrtc.ICECandidateInit` as carried in `ice-candidate`
frames; `SdpMLineIndex` is a nilable pointer in Go, hence an `Option`. -/
structure IceCandidateInit where
  candidate : String
  sdpMid : Option String
  sdpMLineIndex : Option Nat
  usernameFragment : Option String
deriving DecidableEq, Repr

/-- The view of a `webrtc.PeerConnection` that the ICE helper observes:
whether `RemoteDescription()` is non-nil, and the sequence of candidates
passed to `AddICECandidate` (in call order). -/
structure PCState where
  remoteDescriptionSet : Bool
  applied : List IceCandidateInit
deriving DecidableEq, Repr

/-- Embedding of the `ICEHelper` struct of ice_helper.go: the nilable
`pc` pointer and the held-candidate slice. -/
structure ICEHelperState where
  pc : Option PCState
  candidates : List IceCandidateInit
deriving DecidableEq, Repr

/-- Embedding of `NewICEHelper`: stores the given (possibly nil) peer
connection and an empty held-candidate slice. -/
def newICEHelper (pc : Option PCState) : ICEHelperState :=
  { pc := pc, candidates := [] }

/-- Embedding of `ICEHelper.SetPeerConnection`. -/
def setIcePeerConnection (st : ICEHelperState) (pc : Option PCState) : ICEHelperState :=
  { st with pc := pc }

/-- Embedding of the effect, as seen by the helper, of the handler calling
`pc.SetRemoteDescription` on the helper's current peer connection. -/
def iceSetRemoteDescription (st : ICEHelperState) : ICEHelperState :=
  match st.pc with
  | none => st
  | some p => { st with pc := some { p with remoteDescriptionSet := true } }

/-- Embedding of `ICEHelper.FlushHeldCandidates` (ice_helper.go lines 43-53):
when `pc` is non-nil and the held slice is non-empty, apply every held
candidate and clear the slice; otherwise do nothing. -/
def flushHeldCandidates (st : ICEHelperState) : ICEHelperState :=
  match st.pc with
  | none => st
  | some pcSt =>
    if 0 < st.candidates.length then
      { pc := some { pcSt with applied := pcSt.applied ++ st.candidates },
        candidates := [] }
    else st

/-- Embedding of `ICEHelper.AddCandidate` (ice_helper.go lines 27-41): with a
nil `pc` nothing happens at all; with remote description set the candidate is
applied immediately and the held candidates are flushed; otherwise the
candidate is appended to the held slice. -/
def addCandidate (st : ICEHelperState) (c : IceCandidateInit) : ICEHelperState :=
  match st.pc with
  | none => st
  | some pcSt =>
    if pcSt.remoteDescriptionSet then
      flushHeldCandidates { st with pc := some { pcSt with applied := pcSt.applied ++ [c] } }
    else
      { st with candidates := st.candidates ++ [c] }

/-! ## Protocol frames (proto wire format, core/protocol_stream.go) -/

/-- An outbound protocol frame as built by `common.CreateMessage`: the
header's `payload-kind` string plus the payload fields (flattened to
strings; the fan-out claims never inspect payload contents). -/
structure Frame where
  payloadType : String
  fields : List String
deriving DecidableEq, Repr

/-- Modelled from the spec: the `oneof` payload union of `ProtoMessage`
(§6 wire protocol); the generated protobuf code is not under src/. -/
inductive ProtoPayload
  | sdp (typ sdpText : String)
  | ice (cand : IceCandidateInit)
  | clientRequestRoomStream (sessionId roomName : String)
  | serverPushStream (roomName : String)
  | raw (data : String)
  | empty
deriving DecidableEq, Repr

/-- Embedding of `ProtoMessageBase`: the header with its `PayloadType`. -/
structure MessageBase where
  payloadType : String
deriving DecidableEq, Repr

/-- Embedding of a received `ProtoMessage` wrapper: the nilable
`MessageBase` header and the payload union. -/
structure ProtoMessageW where
  messageBase : Option MessageBase
  payload : ProtoPayload
deriving DecidableEq, Repr

/-- Modelled from the spec: the generated getter `GetServerPushStream`,
returning the payload when the union holds that variant and nil otherwise. -/
def getServerPushStream : ProtoPayload → Option String
  | .serverPushStream roomName => some roomName
  | _ => none

/-- Modelled from the spec: the generated getter `GetIce`. -/
def getIce : ProtoPayload → Option IceCandidateInit
  | .ice cand => some cand
  | _ => none

/-- Modelled from the spec: the generated getter `GetSdp`. -/
def getSdp : ProtoPayload → Option (String × String)
  | .sdp typ sdpText => some (typ, sdpText)
  | _ => none

/-- Modelled from the spec: the generated getter
`GetClientRequestRoomStream`. -/
def getClientRequestRoomStream : ProtoPayload → Option (String × String)
  | .clientRequestRoomStream sessionId roomName => some (sessionId, roomName)
  | _ => none

/-! ## Push protocol handler (core/protocol_stream.go, handleStreamPush) -/

/-- Per-stream state of `handleStreamPush`: the relay's local room registry,
the handler-local `room` variable (tracked by room name), and the
handler-local ICE helper. -/
structure PushHandlerState where
  rooms : List Room
  boundRoom : Option String
  ice : ICEHelperState
deriving DecidableEq, Repr

/-- Outcome of processing one frame inside the `handleStreamPush` loop:
either the loop continues with a new state after sending the given replies,
or the goroutine panics (an uncaught Go runtime panic). -/
inductive PushStepResult
  | nextFrame (st : PushHandlerState) (replies : List Frame)
  | panicked (msg : String)
deriving DecidableEq, Repr

/-- Embedding of the per-frame `switch` body of `handleStreamPush`
(protocol_stream.go lines 418-658).  `freshPC` is the identity of the
peer connection a successful `CreatePeerConnection` would return.  Note two
behaviours taken verbatim from the source: a frame with nil `MessageBase` is
logged and the loop continues (no stream reset, lines 418-421), and the
`ice-candidate` branch dereferences `*iceMsg.Candidate.SdpMLineIndex`
without a nil check (line 465), which panics when the field is absent. -/
def handlePushFrame (relayID freshPC : Nat) (st : PushHandlerState)
    (msg : ProtoMessageW) : PushStepResult :=
  match msg.messageBase with
  | none => .nextFrame st []
  | some mb =>
    if mb.payloadType = "push-stream-room" then
      match getServerPushStream msg.payload with
      | some roomName =>
        match getRoomByName st.rooms roomName with
        | some room =>
          if room.ownerID ≠ relayID then
            .nextFrame { st with boundRoom := some room.name } []
          else if isOnline room then
            .nextFrame { st with boundRoom := some room.name } []
          else
            .nextFrame { st with boundRoom := some room.name }
              [Frame.mk "push-stream-ok" [roomName]]
        | none =>
          .nextFrame { st with rooms := createRoom relayID st.rooms roomName,
                               boundRoom := some roomName }
            [Frame.mk "push-stream-ok" [roomName]]
      | none => .nextFrame st []
    else if mb.payloadType = "ice-candidate" then
      match getIce msg.payload with
      | some iceMsg =>
        match iceMsg.sdpMLineIndex with
        | none => .panicked "runtime error: invalid memory address or nil pointer dereference"
        | some _ => .nextFrame { st with ice := addCandidate st.ice iceMsg } []
      | none => .nextFrame st []
    else if mb.payloadType = "offer" then
      match st.boundRoom with
      | none => .nextFrame st []
      | some roomName =>
        match getSdp msg.payload with
        | none => .nextFrame st []
        | some _ =>
          let rooms1 := st.rooms.map
            (fun r => if r.name = roomName then setOfferConnection r freshPC else r)
          let ice1 := setIcePeerConnection st.ice
            (some { remoteDescriptionSet := false, applied := [] })
          let ice2 := iceSetRemoteDescription ice1
          let ice3 := flushHeldCandidates ice2
          .nextFrame { rooms := rooms1, boundRoom := st.boundRoom, ice := ice3 }
            [Frame.mk "answer" ["sdp"]]
    else
      .nextFrame st []

/-- Reply frames sent while processing one push frame. -/
def pushReplies : PushStepResult → List Frame
  | .nextFrame _ replies => replies
  | .panicked _ => []

/-- Registry state after processing one push frame (unchanged on panic). -/
def pushRooms (st : PushHandlerState) : PushStepResult → List Room
  | .nextFrame st1 _ => st1.rooms
  | .panicked _ => st.rooms

/-! ## Request protocol handler (core/protocol_stream.go, handleStreamRequest) -/

/-- What the request handler loop does after one frame. -/
inductive HandlerAction
  | nextFrame
  | resetStream
  | closeStream
deriving DecidableEq, Repr

/-- Result of the `request-stream-room` branch of `handleStreamRequest`:
the frames sent back in order, whether a Participant was created, the
session id echoed or assigned, and how the loop continues. -/
structure RequestRoomResult where
  replies : List Frame
  participantCreated : Bool
  sessionId : String
  action : HandlerAction
deriving DecidableEq, Repr

/-- Embedding of the `request-stream-room` branch of `handleStreamRequest`
(protocol_stream.go lines 96-149 and on): assign or echo the session id,
always reply `session-assigned` first, then look the room up; when the room
is missing, offline, or not locally owned, reply `request-stream-offline`
and continue the loop without creating a Participant; otherwise create the
Participant and reply with an `offer` (happy path of the serve branch). -/
def handleRequestStreamRoom (relayID : Nat) (rooms : List Room)
    (roomName sessionIdReq freshId : String) : RequestRoomResult :=
  let sessionID := if sessionIdReq = "" then freshId else sessionIdReq
  let assigned := Frame.mk "session-assigned" [sessionID, roomName]
  match getRoomByName rooms roomName with
  | none =>
    { replies := [assigned, Frame.mk "request-stream-offline" [roomName]],
      participantCreated := false, sessionId := sessionID, action := .nextFrame }
  | some room =>
    if isOnline room = false ∨ room.ownerID ≠ relayID then
      { replies := [assigned, Frame.mk "request-stream-offline" [roomName]],
        participantCreated := false, sessionId := sessionID, action := .nextFrame }
    else
      { replies := [assigned, Frame.mk "offer" ["sdp"]],
        participantCreated := true, sessionId := sessionID, action := .nextFrame }

/-! ## Length-prefixed framing (common/safebufio.go) -/

/-- Embedding of Go's `binary.PutUvarint` as used by `writeUvarint`:
little-endian base-128 groups, continuation bit 128 on every byte except
the last. -/
def putUvarint (x : Nat) : List Nat :=
  if h : x < 128 then [x]
  else (x % 128 + 128) :: putUvarint (x / 128)
termination_by x
decreasing_by
  exact Nat.div_lt_self (by omega) (by omega)

/-- Embedding of the loop of Go's `binary.ReadUvarint` as used by
`readUvarint`: accumulate 7-bit groups for at most `MaxVarintLen64 = 10`
bytes, fail on end of input, on more than ten continuation bytes, or on a
tenth byte larger than 1 (overflow).  Returns the decoded value and the
remaining input. -/
def readUvarintGo : List Nat → Nat → Nat → Nat → Option (Nat × List Nat)
  | [], _, _, _ => none
  | b :: rest, x, s, i =>
    if 10 ≤ i then none
    else if b < 128 then
      if i = 9 ∧ 1 < b then none
      else some (x + b * 2 ^ s, rest)
    else readUvarintGo rest (x + b % 128 * 2 ^ s) (s + 7) (i + 1)

/-- Embedding of `readUvarint` of safebufio.go. -/
def readUvarint (input : List Nat) : Option (Nat × List Nat) :=
  readUvarintGo input 0 0 0

/-- Embedding of `SafeBufioRW.SendProto` (safebufio.go lines 39-59) at the
byte level: write the varint length prefix of the serialised message
followed by the serialised bytes themselves. -/
def sendProtoBytes (protoData : List Nat) : List Nat :=
  putUvarint protoData.length ++ protoData

/-- Embedding of `SafeBufioRW.ReceiveProto` (safebufio.go lines 61-78) at
the byte level: read the varint length prefix, then read exactly that many
bytes (`io.ReadFull`, failing on short input); the recovered serialised
message and the unread remainder of the stream are returned. -/
def receiveProtoBytes (input : List Nat) : Option (List Nat × List Nat) :=
  match readUvarint input with
  | none => none
  | some (len, rest) =>
    if len ≤ rest.length then some (rest.take len, rest.drop len) else none

/-! ## Data channel message routing (connections/datachannel.go) -/

/-- The inbound `webrtc.DataChannelMessage` as the routing closure in
`NewNestriDataChannel` observes it: a string-typed message, a binary
message `proto.Unmarshal` rejects, or a binary message decoding to a
wrapper with a nilable `MessageBase` header. -/
inductive DCInbound
  | strMsg
  | binUndecodable
  | binDecoded (messageBase : Option MessageBase)
deriving DecidableEq, Repr

/-- Embedding of the callback map lookup `ndc.callbacks[payloadType]`;
callbacks are identified by naturals. -/
def lookupCallback (callbacks : List (String × Nat)) (k : String) : Option Nat :=
  (callbacks.find? (fun e => e.1 = k)).map (fun e => e.2)

/-- Embedding of `NestriDataChannel.RegisterMessageCallback`
(datachannel.go lines 56-62): map insert, overwriting any prior entry. -/
def registerMessageCallback (callbacks : List (String × Nat)) (k : String)
    (cb : Nat) : List (String × Nat) :=
  (k, cb) :: callbacks.filter (fun e => e.1 != k)

/-- Embedding of the `OnMessage` routing closure installed by
`NewNestriDataChannel` (datachannel.go lines 27-46): ignore string
messages, drop undecodable binary messages, and invoke a callback only
when the header is present, its payload type is non-empty, and a callback
is registered for it.  Returns the invoked callback, if any; in every
other case the message is silently discarded. -/
def onDataChannelMessage (callbacks : List (String × Nat)) (msg : DCInbound) : Option Nat :=
  match msg with
  | .strMsg => none
  | .binUndecodable => none
  | .binDecoded mbOpt =>
    match mbOpt with
    | none => none
    | some mb =>
      if 0 < mb.payloadType.length then lookupCallback callbacks mb.payloadType
      else none

/-! ## Concrete states used by the closed theorems -/

/-- A concrete room named "alpha" owned by relay 2, offline. -/
def roomAlphaForeign : Room :=
  { id := 0, name := "alpha", ownerID := 2, peerConnection := none, dataChannel := none }

/-- A concrete push-handler state whose registry holds only
`roomAlphaForeign`. -/
def pushStateForeign : PushHandlerState :=
  { rooms := [roomAlphaForeign], boundRoom := none, ice := newICEHelper none }

/-- A concrete push-handler state with an empty registry, as at the start
of a fresh push stream. -/
def pushStateEmpty : PushHandlerState :=
  { rooms := [], boundRoom := none, ice := newICEHelper none }

/-- A concrete room participant state: no participants, one channel. -/
def roomParticipantsOne : RoomParticipants :=
  { participants := fun _ => none, channels := [7] }

/-! ## Helper lemmas -/

/-- The channel slice produced by the broadcast loop is the pointwise
result of one non-blocking send per channel. -/
theorem broadcastLoop_fst (kind packet : Nat) (l : List ChanState) :
    ∀ pool, (broadcastLoop kind packet l pool).1
      = l.map (fun ch => (trySend ch ⟨kind, packet⟩).1) := by
  induction l with
  | nil => intro pool; rfl
  | cons ch rest ih => intro pool; simp [broadcastLoop, ih]

/-- When every channel is full, the broadcast loop returns every wrapper to
the pool, so the pool never shrinks. -/
theorem broadcastLoop_pool_allFull (kind packet : Nat) (l : List ChanState) :
    ∀ pool, (∀ ch ∈ l, ch.cap ≤ ch.queue.length) →
      pool ≤ (broadcastLoop kind packet l pool).2 := by
  induction l with
  | nil => intro pool _; simp [broadcastLoop]
  | cons ch rest ih =>
    intro pool h
    have hch := h ch (by simp)
    have hrest : ∀ c ∈ rest, c.cap ≤ c.queue.length := fun c hc => h c (by simp [hc])
    have hnl : ¬ ch.queue.length < ch.cap := by omega
    have hfail : (trySend ch ⟨kind, packet⟩).2 = false := by simp [trySend, hnl]
    simp [broadcastLoop, hfail]
    have := ih (pool - 1 + 1) hrest
    omega

/-- Decoding a uvarint-encoded value from any continuation point of the
read loop recovers the value and the rest of the input, provided the value
fits in the bytes the loop is still willing to read. -/
theorem readUvarintGo_putUvarint (v : Nat) :
    ∀ (i s acc : Nat) (rest : List Nat), i ≤ 9 → v < 2 * 2 ^ (7 * (9 - i)) →
      readUvarintGo (putUvarint v ++ rest) acc s i = some (acc + v * 2 ^ s, rest) := by
  induction v using Nat.strong_induction_on with
  | _ v ih =>
    intro i s acc rest hi hv
    by_cases h : v < 128
    · rw [putUvarint]
      rw [dif_pos h]
      have h10 : ¬ 10 ≤ i := by omega
      have hlast : ¬ (i = 9 ∧ 1 < v) := by
        rintro ⟨rfl, hb⟩
        simp at hv
        omega
      simp [readUvarintGo, h10, h, hlast]
    · rw [putUvarint]
      rw [dif_neg h]
      rw [List.cons_append]
      have h10 : ¬ 10 ≤ i := by omega
      have hb : ¬ (v % 128 + 128) < 128 := by omega
      have hi8 : i ≤ 8 := by
        by_contra hc
        have h9 : i = 9 := by omega
        subst h9
        simp at hv
        omega
      have h9 : 9 - (i + 1) = 8 - i := by omega
      have h7 : 7 * (9 - i) = 7 * (8 - i) + 7 := by omega
      have h27 : (2 : Nat) ^ 7 = 128 := by norm_num
      have hbound : v / 128 < 2 * 2 ^ (7 * (9 - (i + 1))) := by
        rw [h9]
        rw [h7, pow_add, h27] at hv
        have hlt : v < 128 * (2 * 2 ^ (7 * (8 - i))) := by
          calc v < 2 * (2 ^ (7 * (8 - i)) * 128) := hv
          _ = 128 * (2 * 2 ^ (7 * (8 - i))) := by ring
        exact Nat.div_lt_of_lt_mul hlt
      have hmod : (v % 128 + 128) % 128 = v % 128 := by omega
      have hrec := ih (v / 128) (Nat.div_lt_self (by omega) (by omega)) (i + 1) (s + 7)
          (acc + v % 128 * 2 ^ s) rest (by omega) hbound
      simp only [readUvarintGo, h10, if_false, hb, hmod]
      rw [hrec]
      have harith : acc + v % 128 * 2 ^ s + v / 128 * 2 ^ (s + 7) = acc + v * 2 ^ s := by
        calc acc + v % 128 * 2 ^ s + v / 128 * 2 ^ (s + 7)
            = acc + (v % 128 + 128 * (v / 128)) * 2 ^ s := by
              rw [pow_add, h27]; ring
          _ = acc + v * 2 ^ s := by rw [Nat.mod_add_div]
      rw [harith]

/-! ## Claim theorems -/

/-- C1: every call to `BroadcastPacket` attempts exactly one non-blocking
send on each channel of the current slice, with a pool wrapper filled with
the kind and packet; a full channel drops the packet for that participant
only (its queue is unchanged and the wrapper goes back to the pool, so the
pool does not shrink when every channel is full); the call never blocks
(each queue stays within its capacity bound); with an empty channel slice
nothing is sent and nothing is taken from the pool. -/
theorem broadcastPacket_one_send_per_channel (st : FanoutState) (kind packet : Nat) :
    (broadcastPacket kind packet st).channels
        = st.channels.map (fun ch => (trySend ch ⟨kind, packet⟩).1)
    ∧ (∀ ch : ChanState,
        ((trySend ch ⟨kind, packet⟩).1.queue = ch.queue ++ [⟨kind, packet⟩]
            ∧ ch.queue.length < ch.cap)
        ∨ ((trySend ch ⟨kind, packet⟩).1 = ch ∧ ch.cap ≤ ch.queue.length))
    ∧ (st.channels = [] → broadcastPacket kind packet st = st)
    ∧ (∀ ch ∈ st.channels,
        (trySend ch ⟨kind, packet⟩).1.queue.length ≤ max ch.queue.length ch.cap)
    ∧ ((∀ ch ∈ st.channels, ch.cap ≤ ch.queue.length) →
        st.pool ≤ (broadcastPacket kind packet st).pool) := by
  refine ⟨?_, ?_, ?_, ?_, ?_⟩
  · by_cases h : st.channels.length = 0
    · have he : st.channels = [] := List.length_eq_zero.mp h
      simp [broadcastPacket, h, he]
    · simp [broadcastPacket, h, broadcastLoop_fst]
  · intro ch
    by_cases h : ch.queue.length < ch.cap
    · exact Or.inl ⟨by simp [trySend, h], h⟩
    · exact Or.inr ⟨by simp [trySend, h], by omega⟩
  · intro h; simp [broadcastPacket, h]
  · intro ch _
    by_cases h : ch.queue.length < ch.cap
    · simp only [trySend, if_pos h]
      simp
      omega
    · simp only [trySend, if_neg h]
      omega
  · intro h
    by_cases hlen : st.channels.length = 0
    · simp [broadcastPacket, hlen]
    · simp only [broadcastPacket, if_neg hlen]
      exact broadcastLoop_pool_allFull kind packet st.channels st.pool h

/-- C1 witness: the theorem at a concrete state with one fresh channel. -/
theorem broadcastPacket_one_send_per_channel_witness :
    ((broadcastPacket 1 5 { channels := [newParticipantChan], pool := 0 }).channels
        = [newParticipantChan].map (fun ch => (trySend ch ⟨1, 5⟩).1))
    ∧ (∀ ch : ChanState,
        ((trySend ch ⟨1, 5⟩).1.queue = ch.queue ++ [⟨1, 5⟩] ∧ ch.queue.length < ch.cap)
        ∨ ((trySend ch ⟨1, 5⟩).1 = ch ∧ ch.cap ≤ ch.queue.length))
    ∧ (({ channels := [newParticipantChan], pool := 0 } : FanoutState).channels = [] →
        broadcastPacket 1 5 { channels := [newParticipantChan], pool := 0 }
          = { channels := [newParticipantChan], pool := 0 })
    ∧ (∀ ch ∈ ({ channels := [newParticipantChan], pool := 0 } : FanoutState).channels,
        (trySend ch ⟨1, 5⟩).1.queue.length ≤ max ch.queue.length ch.cap)
    ∧ ((∀ ch ∈ ({ channels := [newParticipantChan], pool := 0 } : FanoutState).channels,
        ch.cap ≤ ch.queue.length) →
        ({ channels := [newParticipantChan], pool := 0 } : FanoutState).pool
          ≤ (broadcastPacket 1 5 { channels := [newParticipantChan], pool := 0 }).pool) :=
  broadcastPacket_one_send_per_channel { channels := [newParticipantChan], pool := 0 } 1 5

/-- C4: `IsOnline` returns true exactly when the room's inbound peer
connection is non-nil, and the equivalence persists across the operations
that set or clear it: a fresh room and a closed room are offline, and the
push handler's offer branch assigning the connection makes it online. -/
theorem isOnline_iff_inbound_connection (r : Room) (pc rid owner : Nat) (name : String) :
    isOnline r = r.peerConnection.isSome
    ∧ isOnline (setOfferConnection r pc) = true
    ∧ isOnline (roomClose r) = false
    ∧ isOnline (newRoom name rid owner) = false :=
  ⟨rfl, rfl, rfl, rfl⟩

/-- C6: evaluated at the failing inputs, the push handler violates the
stated per-frame error policy: an `ice-candidate` frame whose
`SdpMLineIndex` field is absent makes the handler dereference a nil
pointer and panic (protocol_stream.go line 465, unlike the request handler
which nil-checks the same field at line 349), and a frame with no
`MessageBase` header is logged and the loop merely continues, without
resetting the stream (lines 418-421). -/
theorem pushHandler_malformed_frame_policy_violated :
    handlePushFrame 1 99 pushStateEmpty
        ⟨some ⟨"ice-candidate"⟩, .ice ⟨"candidate:2", none, none, none⟩⟩
      = .panicked "runtime error: invalid memory address or nil pointer dereference"
    ∧ handlePushFrame 1 99 pushStateEmpty ⟨none, .empty⟩ = .nextFrame pushStateEmpty [] := by
  exact ⟨rfl, rfl⟩

/-- C7: adding a participant not already in the room and then removing it
by id restores the channel slice (as a multiset, in fact as a list) and the
participants map to their prior values. -/
theorem addParticipant_remove_roundtrip (st : RoomParticipants) (p : ParticipantRec)
    (hid : st.participants p.id = none) (hch : p.packetQueue ∉ st.channels) :
    ((removeParticipantByID (addParticipant st p) p.id).channels : Multiset Nat)
        = (st.channels : Multiset Nat)
    ∧ (∀ k, (removeParticipantByID (addParticipant st p) p.id).participants k
        = st.participants k) := by
  have hlook : (addParticipant st p).participants p.id = some p := by
    simp [addParticipant]
  constructor
  · have hfilters : st.channels.filter (fun ch => ch != p.packetQueue) = st.channels := by
      apply List.filter_eq_self.mpr
      intro a ha
      simp only [bne_iff_ne, ne_eq, decide_eq_true_eq]
      intro heq
      exact hch (heq ▸ ha)
    have : (removeParticipantByID (addParticipant st p) p.id).channels = st.channels := by
      simp only [removeParticipantByID, addParticipant, eq_self_iff_true, if_true]
      rw [List.filter_append, hfilters]
      simp
    rw [this]
  · intro k
    simp only [removeParticipantByID, addParticipant, eq_self_iff_true, if_true]
    by_cases hk : k = p.id
    · subst hk; simp [hid]
    · simp [hk]

/-- C7 witness: the theorem at a concrete room with one existing channel
and a fresh participant. -/
theorem addParticipant_remove_roundtrip_witness :
    (roomParticipantsOne.participants 3 = none ∧ (9 : Nat) ∉ roomParticipantsOne.channels)
    ∧ (((removeParticipantByID (addParticipant roomParticipantsOne ⟨3, 9⟩) 3).channels
          : Multiset Nat) = (roomParticipantsOne.channels : Multiset Nat)
      ∧ (∀ k, (removeParticipantByID (addParticipant roomParticipantsOne ⟨3, 9⟩) 3).participants k
          = roomParticipantsOne.participants k)) :=
  ⟨⟨rfl, by decide⟩,
    addParticipant_remove_roundtrip roomParticipantsOne ⟨3, 9⟩ rfl (by decide)⟩

/-- C2 counterexample: a `push-stream-room` frame for a room that exists
locally but is owned by relay 2, handled by relay 1, produces no reply at
all — in particular no `push-stream-rejected` frame, contrary to the
claim. -/
theorem pushStreamRoom_no_rejected_frame_cex :
    pushReplies (handlePushFrame 1 99 pushStateForeign
        ⟨some ⟨"push-stream-room"⟩, .serverPushStream "alpha"⟩) = []
    ∧ ¬ (∃ f ∈ pushReplies (handlePushFrame 1 99 pushStateForeign
        ⟨some ⟨"push-stream-room"⟩, .serverPushStream "alpha"⟩),
          f.payloadType = "push-stream-rejected") := by
  exact ⟨rfl, by decide⟩

/-- C2 (amended): when a `push-stream-room` frame names a room that exists
locally but is not owned by this relay, or is already online, the relay
sends no reply whatsoever (the error is only logged; no
`push-stream-rejected` frame exists in the code), its local room registry
is unchanged, and the loop continues with its handler-local room variable
now pointing at the rejected room. -/
theorem pushStreamRoom_reject_silent_state_unchanged (relayID freshPC : Nat)
    (st : PushHandlerState) (roomName : String) (room : Room)
    (hfind : getRoomByName st.rooms roomName = some room)
    (hrej : room.ownerID ≠ relayID ∨ isOnline room = true) :
    handlePushFrame relayID freshPC st
        ⟨some ⟨"push-stream-room"⟩, .serverPushStream roomName⟩
      = .nextFrame { st with boundRoom := some room.name } [] := by
  simp only [handlePushFrame, getServerPushStream, hfind]
  norm_num
  rcases hrej with h | h
  · simp [h]
  · by_cases ho : room.ownerID = relayID
    · simp [ho, h]
    · simp [ho]

/-- C2 witness: the amended theorem at the concrete foreign-owned room. -/
theorem pushStreamRoom_reject_silent_state_unchanged_witness :
    (getRoomByName pushStateForeign.rooms "alpha" = some roomAlphaForeign
      ∧ (roomAlphaForeign.ownerID ≠ 1 ∨ isOnline roomAlphaForeign = true))
    ∧ handlePushFrame 1 99 pushStateForeign
        ⟨some ⟨"push-stream-room"⟩, .serverPushStream "alpha"⟩
      = .nextFrame { pushStateForeign with boundRoom := some roomAlphaForeign.name } [] :=
  ⟨⟨by decide, Or.inl (by decide)⟩,
    pushStreamRoom_reject_silent_state_unchanged 1 99 pushStateForeign "alpha"
      roomAlphaForeign (by decide) (Or.inl (by decide))⟩

/-- C3 counterexample: both stream handlers create their helper as
`NewICEHelper(nil)`; a candidate delivered in that state (before any remote
description exists) leaves the helper completely unchanged — it is neither
buffered (the held slice stays empty) nor ever applied, so it is silently
discarded, contrary to the claim. -/
theorem addCandidate_nilPC_discards_cex :
    addCandidate (newICEHelper none) ⟨"candidate:1", none, some 0, none⟩
        = newICEHelper none
    ∧ (addCandidate (newICEHelper none) ⟨"candidate:1", none, some 0, none⟩).candidates
        = [] := by
  exact ⟨rfl, rfl⟩

/-- C3 (amended): a candidate delivered while the helper holds a non-nil
peer connection whose remote description is not yet set is buffered, not
applied; flushing moves every held candidate into the applied sequence
exactly once and empties the buffer; flushing is idempotent, so no buffered
candidate is ever applied twice.  A candidate delivered while the helper's
peer connection is nil is silently discarded. -/
theorem iceHelper_buffered_applied_once (st : ICEHelperState) (pcSt : PCState)
    (c : IceCandidateInit) (hpc : st.pc = some pcSt)
    (hrd : pcSt.remoteDescriptionSet = false) :
    (addCandidate st c).candidates = st.candidates ++ [c]
    ∧ (addCandidate st c).pc = st.pc
    ∧ (∀ st2 pc2, st2.pc = some pc2 →
        flushHeldCandidates st2
          = { pc := some { pc2 with applied := pc2.applied ++ st2.candidates },
              candidates := [] })
    ∧ (∀ st2, flushHeldCandidates (flushHeldCandidates st2) = flushHeldCandidates st2) := by
  refine ⟨?_, ?_, ?_, ?_⟩
  · simp [addCandidate, hpc, hrd]
  · simp [addCandidate, hpc, hrd]
  · intro st2 pc2 h2
    obtain ⟨pcf, cands⟩ := st2
    have hpcf : pcf = some pc2 := h2
    subst hpcf
    cases cands with
    | nil => simp [flushHeldCandidates]
    | cons a as => simp [flushHeldCandidates]
  · intro st2
    cases hp : st2.pc with
    | none => simp [flushHeldCandidates, hp]
    | some p =>
      by_cases hl : 0 < st2.candidates.length
      · simp [flushHeldCandidates, hp, hl]
      · simp [flushHeldCandidates, hp, hl]

/-- C3 witness: the amended theorem at a helper holding a fresh peer
connection with no remote description. -/
theorem iceHelper_buffered_applied_once_witness :
    (({ pc := some { remoteDescriptionSet := false, applied := [] },
        candidates := [] } : ICEHelperState).pc
        = some { remoteDescriptionSet := false, applied := [] }
      ∧ ({ remoteDescriptionSet := false, applied := [] } : PCState).remoteDescriptionSet
        = false)
    ∧ ((addCandidate { pc := some { remoteDescriptionSet := false, applied := [] },
                       candidates := [] } ⟨"candidate:3", none, some 0, none⟩).candidates
        = [] ++ [⟨"candidate:3", none, some 0, none⟩]
      ∧ (addCandidate { pc := some { remoteDescriptionSet := false, applied := [] },
                        candidates := [] } ⟨"candidate:3", none, some 0, none⟩).pc
        = ({ pc := some { remoteDescriptionSet := false, applied := [] },
             candidates := [] } : ICEHelperState).pc
      ∧ (∀ st2 pc2, st2.pc = some pc2 →
          flushHeldCandidates st2
            = { pc := some { pc2 with applied := pc2.applied ++ st2.candidates },
                candidates := [] })
      ∧ (∀ st2, flushHeldCandidates (flushHeldCandidates st2) = flushHeldCandidates st2)) :=
  ⟨⟨rfl, rfl⟩,
    iceHelper_buffered_applied_once
      { pc := some { remoteDescriptionSet := false, applied := [] }, candidates := [] }
      { remoteDescriptionSet := false, applied := [] }
      ⟨"candidate:3", none, some 0, none⟩ rfl rfl⟩

/-- C5: a `request-stream-room` frame for a room that is missing, offline,
or not locally owned makes the handler first reply `session-assigned`
(echoing the request's session id, or the freshly generated id when the
request's id was empty), then reply `request-stream-offline` with the room
name; no Participant is created and the loop continues with the next
frame. -/
theorem requestStreamRoom_offline_path (relayID : Nat) (rooms : List Room)
    (roomName sid fresh : String)
    (h : ∀ room, getRoomByName rooms roomName = some room →
        isOnline room = false ∨ room.ownerID ≠ relayID) :
    (handleRequestStreamRoom relayID rooms roomName sid fresh).replies
        = [Frame.mk "session-assigned" [if sid = "" then fresh else sid, roomName],
           Frame.mk "request-stream-offline" [roomName]]
    ∧ (handleRequestStreamRoom relayID rooms roomName sid fresh).participantCreated = false
    ∧ (handleRequestStreamRoom relayID rooms roomName sid fresh).sessionId
        = (if sid = "" then fresh else sid)
    ∧ (handleRequestStreamRoom relayID rooms roomName sid fresh).action
        = HandlerAction.nextFrame := by
  cases hfind : getRoomByName rooms roomName with
  | none => simp [handleRequestStreamRoom, hfind]
  | some room =>
    have hrej := h room hfind
    simp [handleRequestStreamRoom, hfind, hrej]

/-- C5 witness: the theorem at an empty registry with an empty session id
(scenario 2 of the spec, room "bravo"). -/
theorem requestStreamRoom_offline_path_witness :
    (∀ room, getRoomByName [] "bravo" = some room →
        isOnline room = false ∨ room.ownerID ≠ 1)
    ∧ ((handleRequestStreamRoom 1 [] "bravo" "" "FRESH").replies
        = [Frame.mk "session-assigned" [if "" = "" then "FRESH" else "", "bravo"],
           Frame.mk "request-stream-offline" ["bravo"]]
      ∧ (handleRequestStreamRoom 1 [] "bravo" "" "FRESH").participantCreated = false
      ∧ (handleRequestStreamRoom 1 [] "bravo" "" "FRESH").sessionId
          = (if "" = "" then "FRESH" else "")
      ∧ (handleRequestStreamRoom 1 [] "bravo" "" "FRESH").action
          = HandlerAction.nextFrame) :=
  ⟨fun room hr => by simp [getRoomByName] at hr,
    requestStreamRoom_offline_path 1 [] "bravo" "" "FRESH"
      (fun room hr => by simp [getRoomByName] at hr)⟩

/-- C9: flushing an empty held-candidate buffer changes nothing and applies
no candidate; after any flush of a reachable helper state (one where a nil
peer connection implies an empty buffer, as maintained by every helper
operation) the buffer is empty; and a candidate added after the remote
description is set is applied directly — it ends up in the applied
sequence and the buffer stays empty rather than growing. -/
theorem iceHelper_flush_noop_and_direct_apply (st : ICEHelperState) (pcSt : PCState)
    (c : IceCandidateInit) (hwf : st.pc = none → st.candidates = []) :
    (st.candidates = [] → flushHeldCandidates st = st)
    ∧ (flushHeldCandidates st).candidates = []
    ∧ (st.pc = some pcSt → pcSt.remoteDescriptionSet = true →
        (addCandidate st c).pc
            = some { remoteDescriptionSet := true,
                     applied := (pcSt.applied ++ [c]) ++ st.candidates }
          ∧ (addCandidate st c).candidates = []) := by
  refine ⟨?_, ?_, ?_⟩
  · intro he
    cases hp : st.pc with
    | none => simp [flushHeldCandidates, hp]
    | some p => simp [flushHeldCandidates, hp, he]
  · cases hp : st.pc with
    | none => simp [flushHeldCandidates, hp, hwf hp]
    | some p =>
      by_cases hl : 0 < st.candidates.length
      · simp [flushHeldCandidates, hp, hl]
      · have he : st.candidates = [] := by
          cases hcs : st.candidates with
          | nil => rfl
          | cons a as => rw [hcs] at hl; simp at hl
        simp [flushHeldCandidates, hp, hl, he]
  · intro hpc hrd
    by_cases hl : 0 < st.candidates.length
    · constructor
      · simp [addCandidate, hpc, hrd, flushHeldCandidates, hl]
      · simp [addCandidate, hpc, hrd, flushHeldCandidates, hl]
    · have he : st.candidates = [] := by
        cases hcs : st.candidates with
        | nil => rfl
        | cons a as => rw [hcs] at hl; simp at hl
      constructor
      · simp [addCandidate, hpc, hrd, flushHeldCandidates, hl, he]
      · simp [addCandidate, hpc, hrd, flushHeldCandidates, hl, he]

/-- C9 witness: the theorem at a helper whose remote description is set and
whose buffer holds one earlier candidate. -/
theorem iceHelper_flush_noop_and_direct_apply_witness :
    (({ pc := some { remoteDescriptionSet := true, applied := [] },
        candidates := [⟨"candidate:4", none, some 1, none⟩] } : ICEHelperState).pc = none →
      ({ pc := some { remoteDescriptionSet := true, applied := [] },
         candidates := [⟨"candidate:4", none, some 1, none⟩] } : ICEHelperState).candidates = [])
    ∧ ((({ pc := some { remoteDescriptionSet := true, applied := [] },
           candidates := [⟨"candidate:4", none, some 1, none⟩] } : ICEHelperState).candidates = [] →
        flushHeldCandidates { pc := some { remoteDescriptionSet := true, applied := [] },
                              candidates := [⟨"candidate:4", none, some 1, none⟩] }
          = { pc := some { remoteDescriptionSet := true, applied := [] },
              candidates := [⟨"candidate:4", none, some 1, none⟩] })
      ∧ (flushHeldCandidates { pc := some { remoteDescriptionSet := true, applied := [] },
                               candidates := [⟨"candidate:4", none, some 1, none⟩] }).candidates = []
      ∧ (({ pc := some { remoteDescriptionSet := true, applied := [] },
            candidates := [⟨"candidate:4", none, some 1, none⟩] } : ICEHelperState).pc
            = some { remoteDescriptionSet := true, applied := [] } →
          ({ remoteDescriptionSet := true, applied := [] } : PCState).remoteDescriptionSet = true →
          (addCandidate { pc := some { remoteDescriptionSet := true, applied := [] },
                          candidates := [⟨"candidate:4", none, some 1, none⟩] }
              ⟨"candidate:5", none, some 0, none⟩).pc
              = some { remoteDescriptionSet := true,
                       applied := (([] ++ [⟨"candidate:5", none, some 0, none⟩])
                          ++ [⟨"candidate:4", none, some 1, none⟩]) }
            ∧ (addCandidate { pc := some { remoteDescriptionSet := true, applied := [] },
                              candidates := [⟨"candidate:4", none, some 1, none⟩] }
                ⟨"candidate:5", none, some 0, none⟩).candidates = [])) :=
  ⟨by simp,
    iceHelper_flush_noop_and_direct_apply
      { pc := some { remoteDescriptionSet := true, applied := [] },
        candidates := [⟨"candidate:4", none, some 1, none⟩] }
      { remoteDescriptionSet := true, applied := [] }
      ⟨"candidate:5", none, some 0, none⟩ (by simp)⟩

/-- C10: the data channel routing closure invokes a callback only for a
binary message that decodes to a wrapper with a present, non-empty-typed
header whose payload type is registered; string messages, undecodable
binary messages, headerless messages, and messages with an unregistered
payload type are all silently discarded (no callback, no error, no state
change). -/
theorem dataChannel_routes_only_registered (callbacks : List (String × Nat))
    (msg : DCInbound) :
    (∀ cb, onDataChannelMessage callbacks msg = some cb →
        ∃ mb, msg = DCInbound.binDecoded (some mb) ∧ 0 < mb.payloadType.length
          ∧ lookupCallback callbacks mb.payloadType = some cb)
    ∧ onDataChannelMessage callbacks DCInbound.strMsg = none
    ∧ onDataChannelMessage callbacks DCInbound.binUndecodable = none
    ∧ onDataChannelMessage callbacks (DCInbound.binDecoded none) = none
    ∧ (∀ mb, lookupCallback callbacks mb.payloadType = none →
        onDataChannelMessage callbacks (DCInbound.binDecoded (some mb)) = none) := by
  refine ⟨?_, rfl, rfl, rfl, ?_⟩
  · intro cb hcb
    cases msg with
    | strMsg => simp [onDataChannelMessage] at hcb
    | binUndecodable => simp [onDataChannelMessage] at hcb
    | binDecoded mbOpt =>
      cases mbOpt with
      | none => simp [onDataChannelMessage] at hcb
      | some mb =>
        by_cases hlen : 0 < mb.payloadType.length
        · exact ⟨mb, rfl, hlen, by simpa [onDataChannelMessage, hlen] using hcb⟩
        · simp [onDataChannelMessage, hlen] at hcb
  · intro mb hnone
    by_cases hlen : 0 < mb.payloadType.length
    · simp [onDataChannelMessage, hlen, hnone]
    · simp [onDataChannelMessage, hlen]

/-- C10 witness: the theorem at a callback table registering "input". -/
theorem dataChannel_routes_only_registered_witness :
    ((∀ cb, onDataChannelMessage [("input", 4)] (DCInbound.binDecoded (some ⟨"input"⟩))
            = some cb →
        ∃ mb, DCInbound.binDecoded (some (⟨"input"⟩ : MessageBase))
              = DCInbound.binDecoded (some mb)
          ∧ 0 < mb.payloadType.length
          ∧ lookupCallback [("input", 4)] mb.payloadType = some cb)
    ∧ onDataChannelMessage [("input", 4)] DCInbound.strMsg = none
    ∧ onDataChannelMessage [("input", 4)] DCInbound.binUndecodable = none
    ∧ onDataChannelMessage [("input", 4)] (DCInbound.binDecoded none) = none
    ∧ (∀ mb, lookupCallback [("input", 4)] mb.payloadType = none →
        onDataChannelMessage [("input", 4)] (DCInbound.binDecoded (some mb)) = none)) :=
  dataChannel_routes_only_registered [("input", 4)]
    (DCInbound.binDecoded (some ⟨"input"⟩))

/-- C8: at the byte level, sending a serialised message with `SendProto`
(uvarint length prefix followed by the message bytes) and reading it back
with `ReceiveProto` (read the prefix, then exactly that many bytes)
recovers the serialised payload bit-for-bit and leaves the rest of the
stream untouched, for every payload whose length fits Go's `uint64`. -/
theorem sendProto_receiveProto_roundtrip (protoData rest : List Nat)
    (hlen : protoData.length < 2 ^ 64) :
    receiveProtoBytes (sendProtoBytes protoData ++ rest) = some (protoData, rest) := by
  have hb : protoData.length < 2 * 2 ^ (7 * (9 - 0)) := by
    norm_num
    omega
  have h := readUvarintGo_putUvarint protoData.length 0 0 0 (protoData ++ rest)
      (by omega) hb
  unfold receiveProtoBytes readUvarint sendProtoBytes
  rw [List.append_assoc, h]
  simp only [Nat.zero_add, pow_zero, Nat.mul_one]
  rw [if_pos (by simp)]
  rw [List.take_left, List.drop_left]

/-- C8 witness: the round trip at a concrete three-byte payload with a
trailing stream byte. -/
theorem sendProto_receiveProto_roundtrip_witness :
    ([1, 2, 3] : List Nat).length < 2 ^ 64
    ∧ receiveProtoBytes (sendProtoBytes [1, 2, 3] ++ [9]) = some ([1, 2, 3], [9]) :=
  ⟨by norm_num, sendProto_receiveProto_roundtrip [1, 2, 3] [9] (by norm_num)⟩

end Nestri
